import Mathlib

/-!
Verification development for the chat companion's two core subsystems:
the fact cache (`internet_learning.py`, class `InternetLearningSystem`) and
the response-memory engine (`learning_system.py`, class `LearningSystem`).

Modelling conventions:
* Python `float` values (reliability scores, similarity scores) are modelled
  as exact rationals `ℚ`; all the arithmetic performed on them by the code
  (sums, means, weighted blends, comparisons) is exact in the source's
  intent, so `ℚ` is a faithful carrier.
* Timestamps (`datetime.now()`, `isoformat` strings) are modelled as `Int`
  seconds; `timedelta.days` is floor division by 86400 (`Int.fdiv`), exactly
  Python's floor semantics.
* Python `dict`s keep insertion order (3.7+); they are modelled as
  association lists `List (key × value)` with first-match lookup and
  in-place update, and `list`s as `List`.
* Text is ASCII-modelled: `str.lower` maps `Char.toLower` over the
  characters, `\w` is alphanumeric-or-underscore, `str.strip` drops
  whitespace at both ends.  The `in` operator on strings is substring
  containment.
-/

/-- Model of Python `str.lower()` (ASCII fragment): lower-case every
character. -/
def lowerStr (s : String) : String := String.mk (s.data.map Char.toLower)

/-- A character matched by the regex class `\w`: alphanumeric or
underscore. -/
def isWordChar (c : Char) : Bool := c.isAlphanum || c == '_'

/-- Helper for `word_tokens`: split a character list into maximal runs of
word characters.  `cur` holds the characters of the current run, reversed. -/
def splitWordsGo : List Char → List Char → List (List Char)
  | [], cur => if cur.isEmpty then [] else [cur.reverse]
  | c :: rest, cur =>
    if isWordChar c then splitWordsGo rest (c :: cur)
    else if cur.isEmpty then splitWordsGo rest []
    else cur.reverse :: splitWordsGo rest []

/-- Model of `re.findall(r'\b\w+\b', text)`: the maximal runs of word
characters of `text`, in order.  Callers pass the already lower-cased
text, as the Python call sites do. -/
def word_tokens (text : String) : List String :=
  (splitWordsGo text.data []).map String.mk

/-- Model of Python's `sub in hay` substring test. -/
def strContains (hay sub : String) : Bool :=
  (List.range (hay.data.length + 1)).any
    (fun i => (hay.data.drop i).take sub.data.length == sub.data)

/-- Model of Python `str.strip()`: drop whitespace from both ends. -/
def trimStr (s : String) : String :=
  String.mk (((s.data.dropWhile Char.isWhitespace).reverse.dropWhile
    Char.isWhitespace).reverse)

/-! ## learning_system.py — data model

`learned_responses` is the JSON document
`{"categories": {...}, "dynamic_responses": [...], "context_responses": {...}}`. -/

/-- One entry of the `dynamic_responses` chronological list
(see `_update_response_database`). -/
structure RespRecord where
  input : String
  response : String
  timestamp : Int
  category : String
deriving DecidableEq, Repr

/-- The in-memory `learned_responses` document of `LearningSystem`. -/
structure LearnedResponses where
  categories : List (String × List String)
  dynamic_responses : List RespRecord
  context_responses : List (String × List String)
deriving DecidableEq, Repr

/-- Keyword table of `_categorize_input`: question words. -/
def question_words : List String :=
  ["what", "how", "why", "when", "where", "who", "which"]

/-- Keyword table of `_categorize_input`: greeting words. -/
def greeting_words : List String := ["hello", "hi", "hey", "greetings"]

/-- Keyword table of `_categorize_input`: goodbye words. -/
def goodbye_words : List String := ["bye", "goodbye", "see you", "farewell"]

/-- Keyword table of `_categorize_input`: compliment words. -/
def compliment_words : List String :=
  ["good", "great", "awesome", "wonderful", "amazing"]

/-- Keyword table of `_categorize_input`: complaint words. -/
def complaint_words : List String := ["bad", "terrible", "awful", "horrible"]

/-- Model of `LearningSystem._categorize_input`: priority-ordered keyword
classifier; each `any` check is a substring test against the lower-cased
input. -/
def categorize_input (text : String) : String :=
  let text_lower := lowerStr text
  if question_words.any (fun w => strContains text_lower w) then "question"
  else if greeting_words.any (fun w => strContains text_lower w) then "greeting"
  else if goodbye_words.any (fun w => strContains text_lower w) then "goodbye"
  else if compliment_words.any (fun w => strContains text_lower w) then "compliment"
  else if complaint_words.any (fun w => strContains text_lower w) then "complaint"
  else "general"

/-- Model of `LearningSystem._update_response_database`: append the response
to its category bucket (if the exact text is new there), append a record to
the chronological `dynamic_responses` list, and keep only the last 1000
records (`[-1000:]`). -/
def update_response_database (now : Int) (user_input ai_response : String)
    (lr : LearnedResponses) : LearnedResponses :=
  let category := categorize_input user_input
  let cats :=
    match lr.categories.lookup category with
    | none => lr.categories ++ [(category, [ai_response])]
    | some bucket =>
      if ai_response ∈ bucket then lr.categories
      else lr.categories.map
        (fun p => if p.1 = category then (p.1, bucket ++ [ai_response]) else p)
  let dyn := lr.dynamic_responses ++ [⟨user_input, ai_response, now, category⟩]
  let dyn := if dyn.length > 1000 then dyn.drop (dyn.length - 1000) else dyn
  { lr with categories := cats, dynamic_responses := dyn }

/-! ## difflib.SequenceMatcher (as used by `get_learned_response`)

`get_learned_response` calls `difflib.SequenceMatcher(None, a, b).ratio()`.
With `isjunk=None` the junk set is empty; `autojunk` only purges "popular"
characters of `b` (count > len(b)//100 + 1) when `len(b) >= 200`.
`ratio()` is `2*M/T` where `M` is the total size of the matching blocks
found by the recursive longest-match decomposition and `T = len(a)+len(b)`. -/

/-- Index table of `b` (`SequenceMatcher.__chain_b`): the positions of `c`
in `b`, ascending; a popular character's list is purged when
`len(b) >= 200` (autojunk). -/
def b2jFun (b : List Char) (c : Char) : List Nat :=
  let idxs := (List.range b.length).filter (fun i => b.getD i ' ' == c)
  if 200 ≤ b.length ∧ b.length / 100 + 1 < idxs.length then [] else idxs

/-- Lookup in the `j2len` row map with default 0 (`j2len.get(j-1, 0)`). -/
def j2get (j2len : List (Nat × Nat)) (j : Nat) : Nat :=
  match j2len.find? (fun p => p.1 == j) with
  | some p => p.2
  | none => 0

/-- Current best match of `find_longest_match`: start in `a`, start in `b`,
size. -/
structure FLMState where
  besti : Nat
  bestj : Nat
  bestsize : Nat
deriving DecidableEq, Repr

/-- One row (fixed `i`) of the `find_longest_match` dynamic program: walk
the positions `j` of `a[i]` in `b` (already restricted to `[blo, bhi)`),
building the new `j2len` row and updating the best match on strictly
greater size. -/
def flmRow (i : Nat) (js : List Nat) (j2len : List (Nat × Nat))
    (st : FLMState) : List (Nat × Nat) × FLMState :=
  js.foldl
    (fun (acc : List (Nat × Nat) × FLMState) j =>
      let k := (if j = 0 then 0 else j2get j2len (j - 1)) + 1
      let st' := if k > acc.2.bestsize then FLMState.mk (i + 1 - k) (j + 1 - k) k
                 else acc.2
      ((j, k) :: acc.1, st'))
    ([], st)

/-- The left extension loop of `find_longest_match` (the junk set is empty,
so only the plain-equality loop can fire). -/
def extendLeft (a b : List Char) (alo blo : Nat) :
    Nat → FLMState → FLMState
  | 0, st => st
  | fuel + 1, st =>
    if decide (alo < st.besti) && decide (blo < st.bestj) &&
        (match a.get? (st.besti - 1), b.get? (st.bestj - 1) with
         | some x, some y => x == y
         | _, _ => false) then
      extendLeft a b alo blo fuel
        ⟨st.besti - 1, st.bestj - 1, st.bestsize + 1⟩
    else st

/-- The right extension loop of `find_longest_match`. -/
def extendRight (a b : List Char) (ahi bhi : Nat) :
    Nat → FLMState → FLMState
  | 0, st => st
  | fuel + 1, st =>
    if decide (st.besti + st.bestsize < ahi) && decide (st.bestj + st.bestsize < bhi) &&
        (match a.get? (st.besti + st.bestsize), b.get? (st.bestj + st.bestsize) with
         | some x, some y => x == y
         | _, _ => false) then
      extendRight a b ahi bhi fuel
        ⟨st.besti, st.bestj, st.bestsize + 1⟩
    else st

/-- Model of `SequenceMatcher.find_longest_match(alo, ahi, blo, bhi)` with
an empty junk set: the dynamic program over rows `i ∈ [alo, ahi)`, then the
two extension loops. -/
def find_longest_match (a b : List Char) (b2j : Char → List Nat)
    (alo ahi blo bhi : Nat) : FLMState :=
  let rows := (List.range ahi).drop alo
  let final :=
    rows.foldl
      (fun (acc : List (Nat × Nat) × FLMState) i =>
        let js := (b2j (a.getD i ' ')).filter (fun j => blo ≤ j && j < bhi)
        flmRow i js acc.1 acc.2)
      ([], ⟨alo, blo, 0⟩)
  let st := extendLeft a b alo blo (a.length + 1) final.2
  extendRight a b ahi bhi (b.length + 1) st

/-- Total size of the matching blocks of `get_matching_blocks`: recursive
longest-match decomposition (the traversal order of the work queue does not
affect the sum).  `fuel ≥ ahi + bhi + 1` suffices for the recursion. -/
def matchTotal (a b : List Char) (b2j : Char → List Nat) :
    Nat → Nat → Nat → Nat → Nat → Nat
  | 0, _, _, _, _ => 0
  | fuel + 1, alo, ahi, blo, bhi =>
    let st := find_longest_match a b b2j alo ahi blo bhi
    if st.bestsize = 0 then 0
    else
      st.bestsize
        + (if alo < st.besti ∧ blo < st.bestj then
            matchTotal a b b2j fuel alo st.besti blo st.bestj
          else 0)
        + (if st.besti + st.bestsize < ahi ∧ st.bestj + st.bestsize < bhi then
            matchTotal a b b2j fuel (st.besti + st.bestsize) ahi
              (st.bestj + st.bestsize) bhi
          else 0)

/-- Model of `SequenceMatcher(None, a, b).ratio()`:
`2*M/T`, or `1.0` when both sequences are empty. -/
def seq_ratio_val (a b : List Char) : ℚ :=
  let total := a.length + b.length
  if total = 0 then 1
  else 2 * (matchTotal a b (b2jFun b) (total + 1) 0 a.length 0 b.length : ℚ) / total

/-! ## learning_system.py — response retrieval -/

/-- The blended similarity score `get_learned_response` computes for one
historical record: `0.6 * SequenceMatcher-ratio + 0.4 * Jaccard` between the
lower-cased new input and the record's lower-cased stored input.
`input_text` is the lower-cased input, `input_words` its word set (the
Python `set` is modelled as a deduplicated list). -/
def blend_score (input_text : String) (input_words : List String)
    (resp_input : String) : ℚ :=
  let resp_text := lowerStr resp_input
  let sr := seq_ratio_val input_text.data resp_text.data
  let resp_words := (word_tokens resp_text).dedup
  let union := (input_words ++ resp_words).dedup
  let jaccard : ℚ :=
    if union.isEmpty then 0
    else ((input_words.filter (fun w => w ∈ resp_words)).length : ℚ) / union.length
  6/10 * sr + 4/10 * jaccard

/-- One iteration of the similarity loop of `get_learned_response`,
threading `(best_match, best_score)`: a record takes over only when its
score strictly exceeds both the best so far and the threshold `0.45`. -/
def scanStep (input_text : String) (input_words : List String)
    (acc : Option String × ℚ) (rd : RespRecord) : Option String × ℚ :=
  let score := blend_score input_text input_words rd.input
  if acc.2 < score ∧ 9/20 < score then (some rd.response, score) else acc

/-- The similarity-scan half of `get_learned_response`: fold over the
`dynamic_responses` history tracking `(best_match, best_score)`, starting
from `(None, 0.0)`. -/
def scanSimilar (user_input : String) (dyn : List RespRecord) : Option String :=
  let input_text := lowerStr user_input
  let input_words := (word_tokens input_text).dedup
  (dyn.foldl (scanStep input_text input_words) (none, 0)).1

/-- Model of `LearningSystem.get_learned_response`.  The category bucket
path calls `random.choice(responses)`; the random draw is modelled by the
extra argument `rand`, picking element `rand % len` (every member is a
possible draw).  If the input's category has no non-empty bucket, fall
through to the similarity scan over `dynamic_responses`. -/
def get_learned_response (rand : Nat) (user_input : String)
    (lr : LearnedResponses) : Option String :=
  let category := categorize_input user_input
  let viaCategory : Option String :=
    match lr.categories.lookup category with
    | some responses =>
      if h : 0 < responses.length then
        some (responses.get ⟨rand % responses.length, Nat.mod_lt _ h⟩)
      else none
    | none => none
  match viaCategory with
  | some r => some r
  | none => scanSimilar user_input lr.dynamic_responses

/-! ## internet_learning.py — data model

The knowledge document is
`{"topics": {topic_key → topic}, "facts": {}, "concepts": {}, "recent_updates": [...]}`;
only the fields the class reads or writes are modelled. -/

/-- One raw search result handed to `learn_from_search_results`
(`{title, content, source, url, reliability}`). -/
structure SearchResult where
  title : String
  content : String
  source : String
  url : String
  reliability : ℚ
deriving DecidableEq, Repr

/-- A source entry of a topic (`source_info` in
`learn_from_search_results`). -/
structure SourceInfo where
  url : String
  title : String
  reliability : ℚ
  accessed_at : Int
deriving DecidableEq, Repr

/-- A fact candidate as produced by `extract_facts_from_text`
(`{fact, topic, confidence, extracted_at}`; the caller then adds the source
fields). -/
structure FactCand where
  fact : String
  topic : String
  confidence : ℚ
  extracted_at : Int
deriving DecidableEq, Repr

/-- A stored fact record.  `relevance_score` is absent (`none`) until
`get_relevant_facts` writes it into the stored dict in place. -/
structure FactRec where
  fact : String
  topic : String
  confidence : ℚ
  extracted_at : Int
  source : String
  source_reliability : ℚ
  relevance_score : Option Nat
deriving DecidableEq, Repr

/-- A topic record of `knowledge_base['topics']`. -/
structure TopicRec where
  query : String
  first_learned : Int
  last_updated : Int
  facts : List FactRec
  sources : List SourceInfo
  reliability_score : ℚ
deriving DecidableEq, Repr

/-- An entry of `knowledge_base['recent_updates']`. -/
structure UpdateRec where
  topic : String
  topic_key : String
  facts_added : Nat
  timestamp : Int
deriving DecidableEq, Repr

/-- The in-memory `knowledge_base` document (the unused `facts` and
`concepts` maps are omitted). -/
structure KnowledgeBase where
  topics : List (String × TopicRec)
  recent_updates : List UpdateRec
deriving DecidableEq, Repr

/-- The dictionary `get_knowledge_about` returns
(`{topic, facts, sources, reliability, last_updated}`). -/
structure Snapshot where
  topic : String
  facts : List FactRec
  sources : List SourceInfo
  reliability : ℚ
  last_updated : Int
deriving DecidableEq, Repr

/-- An entry of `search_history`. -/
structure SearchHistEntry where
  query : String
  timestamp : Int
  results_found : Nat
deriving DecidableEq, Repr

/-- The mutable state of `InternetLearningSystem` touched by the modelled
operations: the knowledge base and the search history. -/
structure ILState where
  kb : KnowledgeBase
  search_history : List SearchHistEntry
deriving DecidableEq, Repr

/-- Learning parameter `max_fact_age_days` (set in `__init__`). -/
def max_fact_age_days : Int := 30

/-- Learning parameter `min_source_reliability` (set in `__init__`). -/
def min_source_reliability : ℚ := 1/2

/-- Python dict assignment `d[k] = v` for a key already present: replace the
value in place, keeping the insertion order. -/
def replaceAssoc (l : List (String × TopicRec)) (k : String) (v : TopicRec) :
    List (String × TopicRec) :=
  l.map (fun p => if p.1 = k then (k, v) else p)

section InternetLearning

/- `md5_16` models `hashlib.md5(·.encode()).hexdigest()[:16]`, the
truncated hex digest used by both key generators.  The digest itself is an
external primitive (a pure function on strings); the development is
parametric in it.

`findall_fact_sentences` models the concatenated `re.findall(pattern, text)`
results over the five fact regex patterns of `extract_facts_from_text`, in
pattern order.  The regex engine is an external primitive; the development
is parametric in the combined matcher. -/
variable (md5_16 : String → String)
variable (findall_fact_sentences : String → List String)

/-- Model of `generate_topic_key`: hash of the lower-cased query. -/
def generate_topic_key (query : String) : String :=
  md5_16 (lowerStr query)

/-- Model of `generate_fact_hash`: hash of the lower-cased fact text. -/
def generate_fact_hash (fact : String) : String :=
  md5_16 (lowerStr fact)

/-- Model of `extract_facts_from_text`: every regex match whose stripped
text is longer than 20 characters becomes a candidate fact with confidence
0.7, stamped `now`. -/
def extract_facts_from_text (now : Int) (text topic : String) : List FactCand :=
  (findall_fact_sentences text).filterMap
    (fun m =>
      if 20 < (trimStr m).length then
        some ⟨trimStr m, topic, 7/10, now⟩
      else none)

/-- The body of the `for fact in facts:` loop of
`learn_from_search_results`: stamp the fact with the result's source name
and reliability, then append it unless a fact with the same fact hash is
already on the topic; count it and add its source reliability into the
running total. -/
def addOneFact (r : SearchResult) (acc : TopicRec × ℚ × Nat)
    (cand : FactCand) : TopicRec × ℚ × Nat :=
  let f : FactRec :=
    ⟨cand.fact, cand.topic, cand.confidence, cand.extracted_at,
      r.source, r.reliability, none⟩
  if generate_fact_hash md5_16 cand.fact ∈
      acc.1.facts.map (fun g => generate_fact_hash md5_16 g.fact) then acc
  else
    ({ acc.1 with facts := acc.1.facts ++ [f] },
      acc.2.1 + r.reliability, acc.2.2 + 1)

/-- The body of the `for result in results:` loop of
`learn_from_search_results`, threading `(topic, total_reliability,
fact_count)`: append the source if unseen (structural equality), then
extract facts from non-empty content and fold them in through
`addOneFact`. -/
def addFactsFromResult (now : Int) (query : String) (r : SearchResult)
    (st : TopicRec × ℚ × Nat) : TopicRec × ℚ × Nat :=
  let topic := st.1
  let source_info : SourceInfo := ⟨r.url, r.title, r.reliability, now⟩
  let topic :=
    if source_info ∈ topic.sources then topic
    else { topic with sources := topic.sources ++ [source_info] }
  if r.content = "" then (topic, st.2.1, st.2.2)
  else
    (extract_facts_from_text findall_fact_sentences now r.content query).foldl
      (addOneFact md5_16 r) (topic, st.2.1, st.2.2)

/-- Model of `learn_from_search_results`.  The Python function body has no
`return` statement, so its value is always `None`; the returned pair is
(new knowledge base, returned value). -/
def learn_from_search_results (now : Int) (query : String)
    (results : List SearchResult) (kb : KnowledgeBase) :
    KnowledgeBase × Option Snapshot :=
  let topic_key := generate_topic_key md5_16 query
  let freshTopic : TopicRec := ⟨query, now, now, [], [], 0⟩
  let kb :=
    if (kb.topics.lookup topic_key).isSome then kb
    else { kb with topics := kb.topics ++ [(topic_key, freshTopic)] }
  let topic0 := (kb.topics.lookup topic_key).getD freshTopic
  let folded := results.foldl
    (fun acc r => addFactsFromResult md5_16 findall_fact_sentences now query r acc)
    (topic0, 0, 0)
  let topic1 := folded.1
  let fact_count := folded.2.2
  let topic1 :=
    if 0 < fact_count then
      { topic1 with
        reliability_score := folded.2.1 / (fact_count : ℚ)
        last_updated := now }
    else topic1
  let kb := { kb with topics := replaceAssoc kb.topics topic_key topic1 }
  let kb :=
    if 0 < fact_count then
      let ru := kb.recent_updates ++ [⟨query, topic_key, fact_count, now⟩]
      { kb with recent_updates :=
          if ru.length > 100 then ru.drop (ru.length - 100) else ru }
    else kb
  (kb, none)

/-- The per-fact filter of `get_knowledge_about`: age within
`max_fact_age_days` (floor days) and source reliability at least
`min_source_reliability`. -/
def fact_filter (now : Int) (f : FactRec) : Bool :=
  decide ((now - f.extracted_at).fdiv 86400 ≤ max_fact_age_days) &&
    decide (min_source_reliability ≤ f.source_reliability)

/-- Model of `get_knowledge_about`: resolve the topic key and return the
filtered view (recent, reliable facts) without touching the store; `none`
when the topic was never learned. -/
def get_knowledge_about (now : Int) (topic : String) (kb : KnowledgeBase) :
    Option Snapshot :=
  match kb.topics.lookup (generate_topic_key md5_16 topic) with
  | none => none
  | some td =>
    some ⟨topic, td.facts.filter (fact_filter now), td.sources,
      td.reliability_score, td.last_updated⟩

/-- Model of `search_internet`.  The network interaction is abstracted as
`outcome`: `none` when the HTTP layer raises (the `except` branch returns
`[]`), `some rs` for the list the function assembles otherwise (possibly
empty).  A history entry is appended before the attempt; its
`results_found` is updated only on the non-raising path. -/
def search_internet (now : Int) (query : String)
    (outcome : Option (List SearchResult))
    (hist : List SearchHistEntry) : List SearchResult × List SearchHistEntry :=
  let hist1 := hist ++ [⟨query, now, 0⟩]
  match outcome with
  | none => ([], hist1)
  | some rs => (rs, hist1.dropLast ++ [⟨query, now, rs.length⟩])

/-- Model of `learn_from_query`.  Returns (returned value, new state,
whether the search collaborator was invoked).  A cached topic updated less
than one day ago is returned as-is; otherwise the search runs, a non-empty
result list is learned from and the refreshed view returned, and an empty
one yields `None`. -/
def learn_from_query (now : Int) (query : String)
    (outcome : Option (List SearchResult)) (st : ILState) :
    Option Snapshot × ILState × Bool :=
  let doSearch : Option Snapshot × ILState × Bool :=
    let sr := search_internet now query outcome st.search_history
    if sr.1.isEmpty then (none, ⟨st.kb, sr.2⟩, true)
    else
      let kb1 := (learn_from_search_results md5_16 findall_fact_sentences
        now query sr.1 st.kb).1
      (get_knowledge_about md5_16 now query kb1, ⟨kb1, sr.2⟩, true)
  match get_knowledge_about md5_16 now query st.kb with
  | some existing =>
    if (now - existing.last_updated).fdiv 86400 < 1 then (some existing, st, false)
    else doSearch
  | none => doSearch

/-- Relevance score of one topic in `get_relevant_facts`: how many of the
input's words occur (as substrings, duplicates counted) in the topic's
lower-cased query. -/
def relScoreOf (words : List String) (td : TopicRec) : Nat :=
  words.foldl
    (fun acc w => if strContains (lowerStr td.query) w then acc + 1 else acc) 0

/-- The in-place write `fact['relevance_score'] = relevance_score` applied
to the first two stored facts of a matching topic. -/
def writeRel (score : Nat) (td : TopicRec) : TopicRec :=
  { td with facts :=
      (td.facts.take 2).map (fun f => { f with relevance_score := some score })
        ++ td.facts.drop 2 }

/-- Model of `get_relevant_facts`.  Because the candidate fact dicts are
the stored dicts themselves, setting `relevance_score` on them mutates the
knowledge base; the model returns the mutated knowledge base together with
the list the function returns. -/
def get_relevant_facts (text : String) (max_facts : Nat) (kb : KnowledgeBase) :
    KnowledgeBase × List FactRec :=
  let words := word_tokens (lowerStr text)
  let folded := kb.topics.foldl
    (fun (acc : List (String × TopicRec) × List FactRec) p =>
      let score := relScoreOf words p.2
      if 0 < score then
        let td := writeRel score p.2
        (acc.1 ++ [(p.1, td)], acc.2 ++ td.facts.take 2)
      else (acc.1 ++ [p], acc.2))
    ([], [])
  let sorted := folded.2.mergeSort
    (fun a b => (b.relevance_score.getD 0) ≤ (a.relevance_score.getD 0))
  ({ kb with topics := folded.1 }, sorted.take max_facts)

end InternetLearning

/-- The four documents `save_all_data` writes with `json.dump`; each is the
current in-memory value (serialization is modelled as the identity on the
modelled state, since the JSON round-trips the structure). -/
def save_all_data (st : ILState) : KnowledgeBase × List SearchHistEntry :=
  (st.kb, st.search_history)

/-! ## Claim C7 — category short-circuit in `get_learned_response` -/

/-- C7: for every input whose priority-classifier category has a non-empty
response bucket, `get_learned_response` returns a member of that category's
bucket (the modelled random draw `rand % len`), any returned value is in
the bucket, and the result does not depend on the chronological
`dynamic_responses` history — the similarity scan is never reached. -/
theorem claim_C7_category_short_circuit (rand : Nat) (input : String)
    (lr : LearnedResponses) (bucket : List String)
    (hb : lr.categories.lookup (categorize_input input) = some bucket)
    (hne : bucket ≠ []) :
    (∃ h : rand % bucket.length < bucket.length,
        get_learned_response rand input lr
          = some (bucket.get ⟨rand % bucket.length, h⟩))
      ∧ (∀ r : String, get_learned_response rand input lr = some r → r ∈ bucket)
      ∧ ∀ dyn : List RespRecord,
          get_learned_response rand input ⟨lr.categories, dyn, lr.context_responses⟩
            = get_learned_response rand input lr := by
  have hlen : 0 < bucket.length := List.length_pos.mpr hne
  have hkey : ∀ dyn : List RespRecord,
      get_learned_response rand input ⟨lr.categories, dyn, lr.context_responses⟩
        = some (bucket.get ⟨rand % bucket.length, Nat.mod_lt _ hlen⟩) := by
    intro dyn
    unfold get_learned_response
    simp only [hb]
    rw [dif_pos hlen]
  have hmain : get_learned_response rand input lr
      = some (bucket.get ⟨rand % bucket.length, Nat.mod_lt _ hlen⟩) := by
    have h := hkey lr.dynamic_responses
    exact h ▸ (by rfl)
  refine ⟨⟨Nat.mod_lt _ hlen, hmain⟩, ?_, ?_⟩
  · intro r hr
    rw [hmain] at hr
    cases hr
    exact List.get_mem _ _ _
  · intro dyn
    rw [hkey dyn, hmain]

/-! ## Claim C9 — keyword matching is substring matching -/

/-- Fixture for C9: a store whose greeting and complaint buckets are both
non-empty. -/
def lrC9 : LearnedResponses :=
  ⟨[("greeting", ["glad to see you"]), ("complaint", ["sorry to hear"])], [], []⟩

/-- C9: `_categorize_input` matches its keywords as substrings of the
lower-cased input, so any input containing "hi" (even inside another word)
and no question keyword is classified "greeting"; in particular the
complaint "this is terrible" is classified "greeting", is stored under the
"greeting" bucket by `_update_response_database`, and `get_learned_response`
looks it up in the "greeting" bucket. -/
theorem claim_C9_substring_categorization :
    (∀ s : String, strContains (lowerStr s) "hi" = true →
      (∀ w ∈ question_words, strContains (lowerStr s) w = false) →
      categorize_input s = "greeting")
      ∧ categorize_input "this is terrible" = "greeting"
      ∧ (update_response_database 0 "this is terrible" "resp"
          ⟨[], [], []⟩).categories = [("greeting", ["resp"])]
      ∧ get_learned_response 0 "this is terrible" lrC9 = some "glad to see you" := by
  refine ⟨?_, by decide, by decide, by decide⟩
  intro s h1 h2
  unfold categorize_input
  have hq : question_words.any (fun w => strContains (lowerStr s) w) = false := by
    rw [List.any_eq_false]
    intro w hw
    simp [h2 w hw]
  have hg : greeting_words.any (fun w => strContains (lowerStr s) w) = true := by
    rw [List.any_eq_true]
    exact ⟨"hi", by simp [greeting_words], h1⟩
  simp only [hq, hg]
  simp

/-- Fixture for the C7 witness: a store with a non-empty greeting bucket. -/
def lrC7 : LearnedResponses :=
  ⟨[("greeting", ["hello there", "hey you"])], [], []⟩

/-- Witness for C7 at the concrete input "hi" (categorized "greeting"),
whose bucket holds two responses; the draw `rand = 1` returns the second. -/
theorem claim_C7_witness :
    lrC7.categories.lookup (categorize_input "hi") = some ["hello there", "hey you"]
      ∧ (∀ r : String, get_learned_response 1 "hi" lrC7 = some r →
          r ∈ ["hello there", "hey you"]) := by
  refine ⟨by decide, ?_⟩
  exact (claim_C7_category_short_circuit 1 "hi" lrC7 ["hello there", "hey you"]
    (by decide) (by decide)).2.1

/-! ## Claim C8 — FIFO cap of `dynamic_responses` -/

/-- The last `n` elements of a list (Python's `l[-n:]` slice, also
`l.drop (l.length - n)`). -/
def lastN (n : Nat) (l : List α) : List α := l.drop (l.length - n)

lemma lastN_eq_reverse_take (n : Nat) (l : List α) :
    lastN n l = (l.reverse.take n).reverse := by
  have h := @List.reverse_take α l.reverse n
  simp only [List.reverse_reverse, List.length_reverse] at h
  rw [lastN, ← h]

lemma lastN_append_lastN (n : Nat) (x y : List α) :
    lastN n (lastN n x ++ y) = lastN n (x ++ y) := by
  simp only [lastN_eq_reverse_take, List.reverse_append, List.reverse_reverse,
    List.take_append_eq_append_take, List.take_take, List.length_reverse,
    List.length_take]
  have h2 : (n - y.length) ⊓ n = n - y.length := by
    simp [Nat.sub_le]
  rw [h2]

lemma lastN_of_length_le (n : Nat) (l : List α) (h : l.length ≤ n) :
    lastN n l = l := by
  rw [lastN, Nat.sub_eq_zero_of_le h, List.drop_zero]

lemma length_lastN_le (n : Nat) (l : List α) : (lastN n l).length ≤ n := by
  rw [lastN, List.length_drop]
  omega

/-- The record `_update_response_database` appends for the pair
`(input, response)` at time `t0`. -/
def mkRespRecord (t0 : Int) (p : String × String) : RespRecord :=
  ⟨p.1, p.2, t0, categorize_input p.1⟩

/-- Sequential insertion of `(input, response)` pairs through
`_update_response_database` (each spec-test insertion at the same time
`t0`). -/
def insertMany (t0 : Int) (ps : List (String × String))
    (lr : LearnedResponses) : LearnedResponses :=
  ps.foldl (fun acc p => update_response_database t0 p.1 p.2 acc) lr

lemma update_dyn_eq (t : Int) (i r : String) (lr : LearnedResponses) :
    (update_response_database t i r lr).dynamic_responses
      = lastN 1000 (lr.dynamic_responses ++ [⟨i, r, t, categorize_input i⟩]) := by
  unfold update_response_database lastN
  dsimp only
  split
  · rfl
  · next h =>
    rw [Nat.sub_eq_zero_of_le (by omega), List.drop_zero]

lemma insertMany_dyn (t0 : Int) (ps : List (String × String)) :
    ∀ lr : LearnedResponses, lr.dynamic_responses.length ≤ 1000 →
      (insertMany t0 ps lr).dynamic_responses
        = lastN 1000 (lr.dynamic_responses ++ ps.map (mkRespRecord t0)) := by
  induction ps with
  | nil =>
    intro lr h
    simpa [insertMany] using (lastN_of_length_le 1000 _ h).symm
  | cons p ps ih =>
    intro lr h
    have hstep : insertMany t0 (p :: ps) lr
        = insertMany t0 ps (update_response_database t0 p.1 p.2 lr) := rfl
    rw [hstep, ih _ (by rw [update_dyn_eq]; exact length_lastN_le _ _),
      update_dyn_eq, lastN_append_lastN]
    simp [mkRespRecord]

/-- C8: the chronological `dynamic_responses` list is FIFO-capped at 1000
by `_update_response_database`: one call keeps the list at ≤ 1000 records
and leaves exactly the last 1000 of (old list ++ new record, newest last);
inserting 1001 records into an empty store leaves exactly the records of
the last 1000 insertions, in order, and the first-inserted record is gone
(whenever it differs from all later ones). -/
theorem claim_C8_fifo_cap (lr : LearnedResponses) (inp resp : String) (t t0 : Int)
    (L : List (String × String)) (hL : L.length = 1001) :
    (update_response_database t inp resp lr).dynamic_responses.length ≤ 1000
      ∧ (update_response_database t inp resp lr).dynamic_responses
          = lastN 1000 (lr.dynamic_responses ++ [⟨inp, resp, t, categorize_input inp⟩])
      ∧ (insertMany t0 L ⟨[], [], []⟩).dynamic_responses
          = (L.drop 1).map (mkRespRecord t0)
      ∧ (insertMany t0 L ⟨[], [], []⟩).dynamic_responses.length = 1000
      ∧ ∀ p : String × String, L.head? = some p →
          mkRespRecord t0 p ∉ (L.drop 1).map (mkRespRecord t0) →
          mkRespRecord t0 p ∉ (insertMany t0 L ⟨[], [], []⟩).dynamic_responses := by
  have hmain : (insertMany t0 L ⟨[], [], []⟩).dynamic_responses
      = (L.drop 1).map (mkRespRecord t0) := by
    rw [insertMany_dyn t0 L ⟨[], [], []⟩ (by simp)]
    show lastN 1000 ([] ++ L.map (mkRespRecord t0)) = _
    rw [List.nil_append, lastN, List.length_map, hL]
    norm_num
  refine ⟨?_, update_dyn_eq t inp resp lr, hmain, ?_, ?_⟩
  · rw [update_dyn_eq]
    exact length_lastN_le _ _
  · rw [hmain]
    simp [hL]
  · intro p h0 hnm
    rw [hmain]
    exact hnm

/-- Fixture for the C8 witness: 1001 insertion pairs, the first one
distinct from the 1000 identical later ones. -/
def pairsC8 : List (String × String) :=
  ("bye now", "farewell friend") :: List.replicate 1000 ("ok then", "fine")

/-- Witness for C8: inserting the 1001 concrete pairs of `pairsC8` into an
empty store leaves exactly 1000 records. -/
theorem claim_C8_witness :
    ((⟨[], [], []⟩ : LearnedResponses).dynamic_responses.length ≤ 1000)
      ∧ pairsC8.length = 1001
      ∧ (insertMany 0 pairsC8 ⟨[], [], []⟩).dynamic_responses.length = 1000 := by
  have hL : pairsC8.length = 1001 := by
    rw [pairsC8, List.length_cons, List.length_replicate]
  refine ⟨by decide, hL, ?_⟩
  exact (claim_C8_fifo_cap ⟨[], [], []⟩ "i" "r" 0 0 pairsC8 hL).2.2.2.1

/-! ## Claim C6 — strict similarity threshold 0.45 -/

/-- The blended score `get_learned_response` assigns to the historical
record `rd` when retrieving for `input`. -/
def c6score (input : String) (rd : RespRecord) : ℚ :=
  blend_score (lowerStr input) ((word_tokens (lowerStr input)).dedup) rd.input

/-- The input's category bucket is absent or empty, so
`get_learned_response` reaches the similarity scan. -/
def c6bucketFree (input : String) (lr : LearnedResponses) : Prop :=
  (lr.categories.lookup (categorize_input input)).getD [] = []

/-- Invariant of the similarity loop over the records `seen` so far:
either no record has beaten the 0.45 threshold and the accumulator is
still `(None, 0.0)`, or the accumulator holds the response and score of a
seen record that beat the threshold and is maximal among the seen. -/
def scanInv (input : String) (seen : List RespRecord)
    (st : Option String × ℚ) : Prop :=
  (st = (none, 0) ∧ ∀ rd ∈ seen, c6score input rd ≤ 9/20)
    ∨ ∃ rd ∈ seen, st.1 = some rd.response ∧ st.2 = c6score input rd ∧
        9/20 < c6score input rd ∧
        ∀ rd2 ∈ seen, c6score input rd2 ≤ c6score input rd

lemma scanInv_step (input : String) (seen : List RespRecord)
    (st : Option String × ℚ) (rd : RespRecord)
    (h : scanInv input seen st) :
    scanInv input (seen ++ [rd])
      (scanStep (lowerStr input) ((word_tokens (lowerStr input)).dedup) st rd) := by
  show scanInv input (seen ++ [rd])
    (if st.2 < c6score input rd ∧ 9/20 < c6score input rd
      then (some rd.response, c6score input rd) else st)
  by_cases hc : st.2 < c6score input rd ∧ 9/20 < c6score input rd
  · rw [if_pos hc]
    right
    refine ⟨rd, by simp, rfl, rfl, hc.2, ?_⟩
    intro rd2 hm
    rcases List.mem_append.mp hm with hm | hm
    · rcases h with ⟨_, hall⟩ | ⟨rd0, _, _, h2, _, h4⟩
      · exact le_of_lt (lt_of_le_of_lt (hall rd2 hm) hc.2)
      · exact le_of_lt (lt_of_le_of_lt (le_of_le_of_eq (h4 rd2 hm) h2.symm) hc.1)
    · rw [List.mem_singleton.mp hm]
  · rw [if_neg hc]
    rcases h with ⟨hst, hall⟩ | ⟨rd0, hmem0, h1, h2, h3, h4⟩
    · left
      refine ⟨hst, ?_⟩
      intro rd2 hm
      rcases List.mem_append.mp hm with hm | hm
      · exact hall rd2 hm
      · rw [List.mem_singleton.mp hm]
        by_contra hlt
        push_neg at hlt
        have h0 : st.2 = 0 := by rw [hst]
        exact hc ⟨h0 ▸ lt_trans (by norm_num) hlt, hlt⟩
    · right
      refine ⟨rd0, List.mem_append_left _ hmem0, h1, h2, h3, ?_⟩
      intro rd2 hm
      rcases List.mem_append.mp hm with hm | hm
      · exact h4 rd2 hm
      · rw [List.mem_singleton.mp hm]
        by_contra hgt
        push_neg at hgt
        exact hc ⟨h2 ▸ hgt, lt_trans h3 hgt⟩

lemma scanInv_fold (input : String) :
    ∀ (l seen : List RespRecord) (st : Option String × ℚ),
      scanInv input seen st →
      scanInv input (seen ++ l)
        (l.foldl (scanStep (lowerStr input) ((word_tokens (lowerStr input)).dedup)) st) := by
  intro l
  induction l with
  | nil =>
    intro seen st h
    simpa using h
  | cons rd l ih =>
    intro seen st h
    have h1 := ih (seen ++ [rd]) _ (scanInv_step input seen st rd h)
    rw [List.append_assoc] at h1
    simpa using h1

lemma glr_eq_scan (rand : Nat) (input : String) (lr : LearnedResponses)
    (hfree : c6bucketFree input lr) :
    get_learned_response rand input lr = scanSimilar input lr.dynamic_responses := by
  unfold get_learned_response
  cases hlk : lr.categories.lookup (categorize_input input) with
  | none => simp [hlk]
  | some b =>
    have hb : b = [] := by
      unfold c6bucketFree at hfree
      rw [hlk] at hfree
      exact hfree
    subst hb
    simp [hlk]

/-- C6: with the input's category bucket absent or empty (the state in
which `get_learned_response` reaches the similarity scan), the scan's
result is absent on an empty history; it is absent exactly when no
historical record's blended score `0.6 * ratio + 0.4 * jaccard` strictly
exceeds `0.45` (in particular a maximum of exactly `0.45` is not
returned, and any maximum above `0.45` — e.g. `0.451` — is); and a
returned response belongs to a maximal-scoring record whose score beats
`0.45`. -/
theorem claim_C6_similarity_threshold (rand : Nat) (input : String)
    (lr : LearnedResponses) (hfree : c6bucketFree input lr) :
    (lr.dynamic_responses = [] → get_learned_response rand input lr = none)
      ∧ (get_learned_response rand input lr = none ↔
          ∀ rd ∈ lr.dynamic_responses, c6score input rd ≤ 9/20)
      ∧ ∀ r : String, get_learned_response rand input lr = some r →
          ∃ rd ∈ lr.dynamic_responses, rd.response = r ∧
            9/20 < c6score input rd ∧
            ∀ rd2 ∈ lr.dynamic_responses, c6score input rd2 ≤ c6score input rd := by
  have hscan := glr_eq_scan rand input lr hfree
  have hinv := scanInv_fold input lr.dynamic_responses [] (none, 0)
    (Or.inl ⟨rfl, by simp⟩)
  rw [List.nil_append] at hinv
  have hres : get_learned_response rand input lr
      = (lr.dynamic_responses.foldl
          (scanStep (lowerStr input) ((word_tokens (lowerStr input)).dedup))
          (none, 0)).1 := hscan
  refine ⟨?_, ?_, ?_⟩
  · intro h
    rw [hres, h]
    rfl
  · constructor
    · intro hn
      rcases hinv with ⟨_, hall⟩ | ⟨rd0, hm0, h1, _, _, _⟩
      · exact hall
      · rw [hres] at hn
        rw [hn] at h1
        cases h1
    · intro hall
      rcases hinv with ⟨hst, _⟩ | ⟨rd0, hm0, _, _, h3, _⟩
      · rw [hres, hst]
      · exact absurd (hall rd0 hm0) (not_le.mpr h3)
  · intro r hr
    rcases hinv with ⟨hst, _⟩ | ⟨rd0, hm0, h1, _, h3, h4⟩
    · rw [hres, hst] at hr
      cases hr
    · rw [hres] at hr
      rw [hr] at h1
      exact ⟨rd0, hm0, (Option.some.inj h1).symm, h3, h4⟩

/-- Fixture for the C6 witness: a historical record whose stored input is
"abce". -/
def rdC6 : RespRecord := ⟨"abce", "a reply", 0, "general"⟩

/-- Fixture for the C6 witness: no category buckets, the one record
`rdC6` in the history. -/
def lrC6 : LearnedResponses := ⟨[], [rdC6], []⟩

/-- Retrieving for "abcd" against the stored "abce" scores exactly `0.45`:
the alignment ratio is `2*3/8 = 3/4` and the word-set Jaccard index is `0`,
so the blend is `0.6 * 3/4 + 0.4 * 0 = 0.45`. -/
lemma c6score_boundary : c6score "abcd" rdC6 = 9/20 := by
  have hM : matchTotal "abcd".data "abce".data (b2jFun "abce".data) 9 0 4 0 4 = 3 := by
    decide
  have h1 : lowerStr "abcd" = "abcd" := by decide
  have h2 : lowerStr "abce" = "abce" := by decide
  have h3 : (word_tokens "abcd").dedup = ["abcd"] := by decide
  have h4 : (word_tokens "abce").dedup = ["abce"] := by decide
  have hr : rdC6.input = "abce" := rfl
  have h5 : (["abcd", "abce"] : List String).dedup = ["abcd", "abce"] := by decide
  have h6 : List.filter (fun w => decide (w ∈ (["abce"] : List String))) ["abcd"] = [] := by
    decide
  have h8 : "abcd".data.length = 4 := by decide
  have h9 : "abce".data.length = 4 := by decide
  unfold c6score blend_score seq_ratio_val
  rw [hr, h1, h2]
  dsimp only
  rw [h3, h4, h8, h9]
  norm_num [h5, h6, hM]
  decide

/-- Witness for C6: for the input "abcd" against the single stored pair
with input "abce" the maximum blended score is exactly `0.45`, and the
retrieval result is absent. -/
theorem claim_C6_witness :
    c6bucketFree "abcd" lrC6 ∧ c6score "abcd" rdC6 = 9/20
      ∧ get_learned_response 0 "abcd" lrC6 = none := by
  refine ⟨by unfold c6bucketFree; decide, c6score_boundary, ?_⟩
  refine (claim_C6_similarity_threshold 0 "abcd" lrC6 (by unfold c6bucketFree; decide)).2.1.mpr ?_
  intro rd hm
  have h : rd = rdC6 := List.mem_singleton.mp hm
  rw [h, c6score_boundary]

/-! ## Claim C5 — get_knowledge_about filters by age and reliability -/

lemma fdiv_day_le_30 (d : Int) : d.fdiv 86400 ≤ 30 ↔ d < 31 * 86400 := by
  rw [Int.fdiv_eq_ediv _ (by norm_num)]
  omega

lemma fdiv_day_lt_1 (d : Int) : d.fdiv 86400 < 1 ↔ d < 86400 := by
  rw [Int.fdiv_eq_ediv _ (by norm_num)]
  omega

/-- C5: for a cached topic, `get_knowledge_about` returns exactly the
stored facts passing the per-fact filter (no mutation: the function
returns a fresh view of the stored record), the filter accepts a fact
exactly when its age is under 31 floor-days (i.e. `days ≤ 30`) and its
recorded source reliability is at least `min_source_reliability = 0.5`,
and it rejects a fact stamped exactly 31 days in the past. -/
theorem claim_C5_knowledge_filter (f : String → String) (now : Int) (q : String)
    (kb : KnowledgeBase) (td : TopicRec)
    (h : kb.topics.lookup (generate_topic_key f q) = some td) :
    get_knowledge_about f now q kb
        = some ⟨q, td.facts.filter (fact_filter now), td.sources,
            td.reliability_score, td.last_updated⟩
      ∧ (∀ fa : FactRec, fact_filter now fa = true ↔
          (now - fa.extracted_at < 31 * 86400
            ∧ min_source_reliability ≤ fa.source_reliability))
      ∧ ∀ fa : FactRec, now - fa.extracted_at = 31 * 86400 →
          fact_filter now fa = false := by
  refine ⟨?_, ?_, ?_⟩
  · unfold get_knowledge_about
    rw [h]
  · intro fa
    unfold fact_filter
    rw [Bool.and_eq_true, decide_eq_true_eq, decide_eq_true_eq,
      max_fact_age_days, fdiv_day_le_30]
  · intro fa he
    unfold fact_filter
    rw [he, max_fact_age_days]
    have hfalse : decide ((31 * 86400 : Int).fdiv 86400 ≤ 30) = false := by decide
    rw [hfalse, Bool.false_and]

/-- Concrete stand-in for the md5 digest primitive in witnesses and
counterexamples: any pure function on strings is admissible; the identity
is used so that runs are fully computable. -/
def mdF : String → String := fun s => s

/-- Concrete stand-in for the regex matcher in witnesses and
counterexamples: treats the whole text as the single matched sentence. -/
def faF : String → List String := fun s => [s]

/-- Fixture for the C5 witness: a fact stamped exactly 31 days in the
past. -/
def fOldC5 : FactRec :=
  ⟨"An old stored fact about paris.", "paris", 7/10, -(31*86400), "W", 9/10, none⟩

/-- Fixture for the C5 witness. -/
def tdC5 : TopicRec := ⟨"paris", 0, 0, [fOldC5], [], 0⟩

/-- Fixture for the C5 witness. -/
def kbC5 : KnowledgeBase := ⟨[("paris", tdC5)], []⟩

/-- Witness for C5: at `now = 0`, the cached fact stamped 31 days in the
past fails the filter, so it is absent from the returned view. -/
theorem claim_C5_witness :
    kbC5.topics.lookup (generate_topic_key mdF "paris") = some tdC5
      ∧ (0 : Int) - fOldC5.extracted_at = 31 * 86400
      ∧ fact_filter 0 fOldC5 = false := by
  refine ⟨rfl, by decide, ?_⟩
  exact (claim_C5_knowledge_filter mdF 0 "paris" kbC5 tdC5 rfl).2.2 fOldC5 (by decide)

/-! ## Claim C4 — the 24-hour freshness gate of learn_from_query -/

/-- C4: when the query's topic is cached (`get_knowledge_about` returns a
view) and it was last updated less than 24 hours ago, `learn_from_query`
returns the cached filtered view, leaves the state untouched, and does not
invoke the search collaborator; once at least 24 hours have elapsed, the
call invokes the search collaborator. -/
theorem claim_C4_freshness_gate (f : String → String)
    (g : String → List String) (now : Int) (q : String)
    (outcome : Option (List SearchResult)) (st : ILState) (ek : Snapshot)
    (hcache : get_knowledge_about f now q st.kb = some ek) :
    (now - ek.last_updated < 86400 →
        learn_from_query f g now q outcome st = (some ek, st, false))
      ∧ (86400 ≤ now - ek.last_updated →
          (learn_from_query f g now q outcome st).2.2 = true) := by
  constructor
  · intro hfresh
    unfold learn_from_query
    simp only [hcache]
    rw [if_pos ((fdiv_day_lt_1 _).mpr hfresh)]
  · intro hstale
    unfold learn_from_query
    simp only [hcache]
    rw [if_neg (by rw [fdiv_day_lt_1]; omega)]
    split <;> rfl

/-- Fixture for the C4 witness: a topic cached at time 0. -/
def tdC4 : TopicRec := ⟨"paris", 0, 0, [], [], 0⟩

/-- Fixture for the C4 witness. -/
def stC4 : ILState := ⟨⟨[("paris", tdC4)], []⟩, []⟩

/-- The cached filtered view of `tdC4`. -/
def ekC4 : Snapshot := ⟨"paris", [], [], 0, 0⟩

/-- Witness for C4: one hour after the cached update, `learn_from_query`
returns the cached view without touching the state or calling search. -/
theorem claim_C4_witness :
    get_knowledge_about mdF 3600 "paris" stC4.kb = some ekC4
      ∧ (3600 : Int) - ekC4.last_updated < 86400
      ∧ learn_from_query mdF faF 3600 "paris" (some []) stC4
          = (some ekC4, stC4, false) := by
  refine ⟨rfl, by decide, ?_⟩
  exact (claim_C4_freshness_gate mdF faF 3600 "paris" (some []) stC4 ekC4 rfl).1
    (by decide)

/-! ## Claim C3 — stale cache with failing or empty search -/

/-- Fixture for C3: a topic cached at time 0, queried two days later. -/
def tdC3 : TopicRec := ⟨"paris", 0, 0, [], [], 0⟩

/-- Fixture for C3. -/
def stC3 : ILState := ⟨⟨[("paris", tdC3)], []⟩, []⟩

/-- Counterexample to C3: "paris" has a cached (stale) view, yet with an
empty search result — and likewise with a raising search —
`learn_from_query` returns the absent value, not the prior cached view. -/
theorem claim_C3_counterexample :
    (learn_from_query mdF faF 172800 "paris" (some []) stC3).1 = none
      ∧ (learn_from_query mdF faF 172800 "paris" none stC3).1 = none
      ∧ get_knowledge_about mdF 172800 "paris" stC3.kb
          = some ⟨"paris", [], [], 0, 0⟩ := by
  exact ⟨rfl, rfl, rfl⟩

/-- C3 (amended): for a stale (or absent) cached topic, if the external
search raises or returns no results, `learn_from_query` returns the absent
value — even when a prior cached view exists — while leaving the knowledge
base itself unchanged (only the search history gains an entry); the search
collaborator is invoked. -/
theorem claim_C3_amended (f : String → String) (g : String → List String)
    (now : Int) (q : String) (outcome : Option (List SearchResult))
    (st : ILState)
    (hempty : outcome = none ∨ outcome = some [])
    (hstale : ∀ ek : Snapshot, get_knowledge_about f now q st.kb = some ek →
        86400 ≤ now - ek.last_updated) :
    (learn_from_query f g now q outcome st).1 = none
      ∧ (learn_from_query f g now q outcome st).2.1.kb = st.kb
      ∧ (learn_from_query f g now q outcome st).2.2 = true := by
  have hsearch : ∀ hist, (search_internet now q outcome hist).1 = [] := by
    intro hist
    rcases hempty with h | h <;> rw [h] <;> rfl
  unfold learn_from_query
  cases hcache : get_knowledge_about f now q st.kb with
  | none =>
    refine ⟨?_, ?_, ?_⟩ <;>
      · dsimp only
        rw [if_pos (by rw [hsearch]; rfl)]
  | some ek =>
    have hne : ¬ (now - ek.last_updated).fdiv 86400 < 1 := by
      rw [fdiv_day_lt_1]
      have := hstale ek hcache
      omega
    refine ⟨?_, ?_, ?_⟩ <;>
      · dsimp only
        rw [if_neg hne, if_pos (by rw [hsearch]; rfl)]

/-- Witness for the amended C3 at the concrete stale state `stC3`: two
days after the cached update, an empty search result yields the absent
value with the knowledge base unchanged. -/
theorem claim_C3_witness :
    ((some ([] : List SearchResult)) = none ∨ some ([] : List SearchResult) = some [])
      ∧ (learn_from_query mdF faF 172800 "paris" (some []) stC3).1 = none
      ∧ (learn_from_query mdF faF 172800 "paris" (some []) stC3).2.1.kb = stC3.kb := by
  have h := claim_C3_amended mdF faF 172800 "paris" (some []) stC3 (Or.inr rfl)
    (by
      intro ek hek
      have : ek = ⟨"paris", [], [], 0, 0⟩ := by
        have h2 : get_knowledge_about mdF 172800 "paris" stC3.kb
            = some ⟨"paris", [], [], 0, 0⟩ := rfl
        rw [h2] at hek
        exact (Option.some.inj hek).symm
      rw [this]
      decide)
  exact ⟨Or.inr rfl, h.1, h.2.1⟩

/-! ## Claims C1 and C2 — what `learn_from_search_results` actually does -/

/-- Sum of the recorded source reliabilities of a list of facts
(the loop variable `total_reliability` accumulates exactly this over the
newly appended facts). -/
def sumRel (l : List FactRec) : ℚ :=
  (l.map (fun f => f.source_reliability)).sum

/-- The arithmetic mean of the source reliabilities of a list of facts —
the aggregate the specification text describes ("mean source-reliability of
all facts"). -/
def meanRel (l : List FactRec) : ℚ := sumRel l / (l.length : ℚ)

lemma addOneFact_fold_spec (f : String → String) (r : SearchResult)
    (cands : List FactCand) :
    ∀ (td : TopicRec) (tot : ℚ) (cnt : Nat),
      ∃ newF : List FactRec,
        (cands.foldl (addOneFact f r) (td, tot, cnt)).1
            = { td with facts := td.facts ++ newF }
          ∧ (cands.foldl (addOneFact f r) (td, tot, cnt)).2.1 = tot + sumRel newF
          ∧ (cands.foldl (addOneFact f r) (td, tot, cnt)).2.2 = cnt + newF.length := by
  induction cands with
  | nil =>
    intro td tot cnt
    exact ⟨[], by simp, by simp [sumRel], by simp⟩
  | cons c cs ih =>
    intro td tot cnt
    have hstep : ∀ acc : TopicRec × ℚ × Nat,
        (c :: cs).foldl (addOneFact f r) acc = cs.foldl (addOneFact f r)
          (addOneFact f r acc c) := fun _ => rfl
    rw [hstep]
    by_cases hdup : generate_fact_hash f c.fact ∈
        td.facts.map (fun g => generate_fact_hash f g.fact)
    · have ha : addOneFact f r (td, tot, cnt) c = (td, tot, cnt) := by
        unfold addOneFact
        rw [if_pos hdup]
      rw [ha]
      exact ih td tot cnt
    · have ha : addOneFact f r (td, tot, cnt) c
        = ({ td with facts := td.facts ++
              [⟨c.fact, c.topic, c.confidence, c.extracted_at,
                r.source, r.reliability, none⟩] },
            tot + r.reliability, cnt + 1) := by
        unfold addOneFact
        rw [if_neg hdup]
      rw [ha]
      obtain ⟨newF, hf, ht, hc⟩ := ih _ (tot + r.reliability) (cnt + 1)
      refine ⟨⟨c.fact, c.topic, c.confidence, c.extracted_at,
        r.source, r.reliability, none⟩ :: newF, ?_, ?_, ?_⟩
      · rw [hf]
        cases td
        simp
      · rw [ht]
        simp [sumRel]
        ring
      · rw [hc, List.length_cons]
        omega

lemma sumRel_append (a b : List FactRec) : sumRel (a ++ b) = sumRel a + sumRel b := by
  simp [sumRel]

lemma addFacts_fold_spec (f : String → String) (g : String → List String)
    (now : Int) (q : String) (results : List SearchResult) :
    ∀ (td : TopicRec) (tot : ℚ) (cnt : Nat),
      ∃ (newF : List FactRec) (newS : List SourceInfo),
        results.foldl (fun acc r => addFactsFromResult f g now q r acc) (td, tot, cnt)
          = ({ td with facts := td.facts ++ newF, sources := td.sources ++ newS },
              tot + sumRel newF, cnt + newF.length) := by
  induction results with
  | nil =>
    intro td tot cnt
    refine ⟨[], [], ?_⟩
    cases td
    simp [sumRel]
  | cons r rs ih =>
    intro td tot cnt
    obtain ⟨q0, fl0, lu0, fa0, so0, rs0⟩ := td
    have hstep : ∃ (nf : List FactRec) (ns : List SourceInfo),
        addFactsFromResult f g now q r (⟨q0, fl0, lu0, fa0, so0, rs0⟩, tot, cnt)
          = (⟨q0, fl0, lu0, fa0 ++ nf, so0 ++ ns, rs0⟩, tot + sumRel nf, cnt + nf.length) := by
      unfold addFactsFromResult
      dsimp only
      by_cases hs : (⟨r.url, r.title, r.reliability, now⟩ : SourceInfo) ∈ so0
      · rw [if_pos hs]
        by_cases hc : r.content = ""
        · rw [if_pos hc]
          exact ⟨[], [], by simp [sumRel]⟩
        · rw [if_neg hc]
          obtain ⟨nf, h1, h2, h3⟩ := addOneFact_fold_spec f r
            (extract_facts_from_text g now r.content q) ⟨q0, fl0, lu0, fa0, so0, rs0⟩ tot cnt
          refine ⟨nf, [], ?_⟩
          have hx : (extract_facts_from_text g now r.content q).foldl
              (addOneFact f r) (⟨q0, fl0, lu0, fa0, so0, rs0⟩, tot, cnt)
              = (((extract_facts_from_text g now r.content q).foldl
                    (addOneFact f r) (⟨q0, fl0, lu0, fa0, so0, rs0⟩, tot, cnt)).1,
                 ((extract_facts_from_text g now r.content q).foldl
                    (addOneFact f r) (⟨q0, fl0, lu0, fa0, so0, rs0⟩, tot, cnt)).2.1,
                 ((extract_facts_from_text g now r.content q).foldl
                    (addOneFact f r) (⟨q0, fl0, lu0, fa0, so0, rs0⟩, tot, cnt)).2.2) := rfl
          rw [hx, h1, h2, h3]
          simp
      · rw [if_neg hs]
        by_cases hc : r.content = ""
        · rw [if_pos hc]
          exact ⟨[], [⟨r.url, r.title, r.reliability, now⟩], by simp [sumRel]⟩
        · rw [if_neg hc]
          obtain ⟨nf, h1, h2, h3⟩ := addOneFact_fold_spec f r
            (extract_facts_from_text g now r.content q)
            ⟨q0, fl0, lu0, fa0, so0 ++ [⟨r.url, r.title, r.reliability, now⟩], rs0⟩ tot cnt
          refine ⟨nf, [⟨r.url, r.title, r.reliability, now⟩], ?_⟩
          have hx : (extract_facts_from_text g now r.content q).foldl
              (addOneFact f r)
              (⟨q0, fl0, lu0, fa0, so0 ++ [⟨r.url, r.title, r.reliability, now⟩], rs0⟩,
                tot, cnt)
              = (((extract_facts_from_text g now r.content q).foldl
                    (addOneFact f r)
                    (⟨q0, fl0, lu0, fa0, so0 ++ [⟨r.url, r.title, r.reliability, now⟩],
                      rs0⟩, tot, cnt)).1,
                 ((extract_facts_from_text g now r.content q).foldl
                    (addOneFact f r)
                    (⟨q0, fl0, lu0, fa0, so0 ++ [⟨r.url, r.title, r.reliability, now⟩],
                      rs0⟩, tot, cnt)).2.1,
                 ((extract_facts_from_text g now r.content q).foldl
                    (addOneFact f r)
                    (⟨q0, fl0, lu0, fa0, so0 ++ [⟨r.url, r.title, r.reliability, now⟩],
                      rs0⟩, tot, cnt)).2.2) := rfl
          rw [hx, h1, h2, h3]
    obtain ⟨nf, ns, hstep⟩ := hstep
    have hfold : (r :: rs).foldl (fun acc r => addFactsFromResult f g now q r acc)
        (⟨q0, fl0, lu0, fa0, so0, rs0⟩, tot, cnt)
        = rs.foldl (fun acc r => addFactsFromResult f g now q r acc)
            (⟨q0, fl0, lu0, fa0 ++ nf, so0 ++ ns, rs0⟩,
              tot + sumRel nf, cnt + nf.length) := by
      show rs.foldl (fun acc r => addFactsFromResult f g now q r acc)
          (addFactsFromResult f g now q r (⟨q0, fl0, lu0, fa0, so0, rs0⟩, tot, cnt)) = _
      rw [hstep]
    obtain ⟨nf2, ns2, hrest⟩ := ih
      ⟨q0, fl0, lu0, fa0 ++ nf, so0 ++ ns, rs0⟩ (tot + sumRel nf) (cnt + nf.length)
    refine ⟨nf ++ nf2, ns ++ ns2, ?_⟩
    rw [hfold, hrest]
    simp [sumRel_append, List.append_assoc, List.length_append]
    constructor
    · ring
    · omega

lemma lookup_replaceAssoc (l : List (String × TopicRec)) (k : String) (v : TopicRec)
    (h : (l.lookup k).isSome) : (replaceAssoc l k v).lookup k = some v := by
  induction l with
  | nil => simp [List.lookup] at h
  | cons p l ih =>
    by_cases hk : p.1 = k
    · unfold replaceAssoc
      rw [List.map_cons, if_pos hk]
      simp [List.lookup]
    · have hne : (k == p.1) = false := beq_eq_false_iff_ne.mpr (fun he => hk he.symm)
      have hl : ((p :: l).lookup k).isSome = (l.lookup k).isSome := by
        simp [List.lookup, hne]
      rw [hl] at h
      unfold replaceAssoc
      rw [List.map_cons, if_neg hk]
      have : (List.lookup k (((l.map (fun p => if p.1 = k then (k, v) else p))).cons p))
          = List.lookup k (l.map (fun p => if p.1 = k then (k, v) else p)) := by
        simp [List.lookup, hne]
      rw [this]
      exact ih h

/-- Characterization of one `learn_from_search_results` call on an already
cached topic: the stored topic gains some (possibly empty) suffix of new
facts and new sources; when no fact is new, the reliability score, the
last-updated stamp and the recent-updates list are untouched; when at
least one fact is new, the reliability score becomes the mean
source-reliability of the newly appended facts and `last_updated` is
stamped. -/
lemma learn_spec (f : String → String) (g : String → List String)
    (now : Int) (q : String) (results : List SearchResult)
    (kb : KnowledgeBase) (td0 : TopicRec)
    (h0 : kb.topics.lookup (generate_topic_key f q) = some td0) :
    ∃ (newF : List FactRec) (newS : List SourceInfo) (td1 : TopicRec),
      (learn_from_search_results f g now q results kb).1.topics.lookup
          (generate_topic_key f q) = some td1
        ∧ td1.facts = td0.facts ++ newF
        ∧ td1.sources = td0.sources ++ newS
        ∧ td1.query = td0.query
        ∧ td1.first_learned = td0.first_learned
        ∧ (newF = [] → td1.reliability_score = td0.reliability_score
            ∧ td1.last_updated = td0.last_updated
            ∧ (learn_from_search_results f g now q results kb).1.recent_updates
                = kb.recent_updates)
        ∧ (newF ≠ [] → td1.reliability_score = sumRel newF / (newF.length : ℚ)
            ∧ td1.last_updated = now) := by
  obtain ⟨newF, newS, hfold⟩ := addFacts_fold_spec f g now q results td0 0 0
  have hlearn : learn_from_search_results f g now q results kb
      = (let topic1 :=
          if 0 < newF.length then
            { td0 with
              facts := td0.facts ++ newF
              sources := td0.sources ++ newS
              reliability_score := sumRel newF / ((newF.length : Nat) : ℚ)
              last_updated := now }
          else { td0 with facts := td0.facts ++ newF, sources := td0.sources ++ newS }
        let kb2 : KnowledgeBase :=
          { kb with topics := replaceAssoc kb.topics (generate_topic_key f q) topic1 }
        let kb3 :=
          if 0 < newF.length then
            let ru := kb2.recent_updates ++
              [⟨q, generate_topic_key f q, newF.length, now⟩]
            { kb2 with recent_updates :=
                if ru.length > 100 then ru.drop (ru.length - 100) else ru }
          else kb2
        (kb3, (none : Option Snapshot))) := by
    unfold learn_from_search_results
    dsimp only
    rw [h0]
    simp only [Option.isSome_some, Option.getD_some, if_true]
    rw [h0]
    simp only [Option.getD_some]
    rw [hfold]
    dsimp only
    simp only [Nat.zero_add, zero_add]
  have hsome : (kb.topics.lookup (generate_topic_key f q)).isSome := by
    rw [h0]
    rfl
  refine ⟨newF, newS,
    (if 0 < newF.length then
      { td0 with
        facts := td0.facts ++ newF
        sources := td0.sources ++ newS
        reliability_score := sumRel newF / ((newF.length : Nat) : ℚ)
        last_updated := now }
    else { td0 with facts := td0.facts ++ newF, sources := td0.sources ++ newS }),
    ?_, ?_, ?_, ?_, ?_, ?_, ?_⟩
  · rw [hlearn]
    dsimp only
    by_cases hn : 0 < newF.length
    · simp only [if_pos hn]
      exact lookup_replaceAssoc kb.topics (generate_topic_key f q) _ hsome
    · simp only [if_neg hn]
      exact lookup_replaceAssoc kb.topics (generate_topic_key f q) _ hsome
  · by_cases hn : 0 < newF.length
    · simp only [if_pos hn]
    · simp only [if_neg hn]
  · by_cases hn : 0 < newF.length
    · simp only [if_pos hn]
    · simp only [if_neg hn]
  · by_cases hn : 0 < newF.length
    · simp only [if_pos hn]
    · simp only [if_neg hn]
  · by_cases hn : 0 < newF.length
    · simp only [if_pos hn]
    · simp only [if_neg hn]
  · intro he
    have hn : ¬ 0 < newF.length := by
      rw [he]
      simp
    simp only [if_neg hn]
    refine ⟨by trivial, by trivial, ?_⟩
    rw [hlearn]
    dsimp only
    simp only [if_neg hn]
  · intro he
    have hn : 0 < newF.length := List.length_pos.mpr he
    simp only [if_pos hn]
    exact ⟨by trivial, by trivial⟩

/-- C2 (amended): `learn_from_search_results` never returns a snapshot —
its Python body has no `return`, so the caller always receives the absent
value, whether or not facts were added; and when no new fact is appended to
an existing topic, the topic's facts, reliability score, timestamps and
the recent-updates list are unchanged, but the topic's source list may
still grow by the unseen sources of the passed results. -/
theorem claim_C2_amended (f : String → String) (g : String → List String)
    (now : Int) (q : String) (results : List SearchResult)
    (kb : KnowledgeBase) (td0 td1 : TopicRec)
    (h0 : kb.topics.lookup (generate_topic_key f q) = some td0)
    (h1 : (learn_from_search_results f g now q results kb).1.topics.lookup
        (generate_topic_key f q) = some td1)
    (hsame : td1.facts = td0.facts) :
    (learn_from_search_results f g now q results kb).2 = none
      ∧ td1.reliability_score = td0.reliability_score
      ∧ td1.last_updated = td0.last_updated
      ∧ td1.first_learned = td0.first_learned
      ∧ td1.query = td0.query
      ∧ (learn_from_search_results f g now q results kb).1.recent_updates
          = kb.recent_updates
      ∧ ∃ extra, td1.sources = td0.sources ++ extra := by
  obtain ⟨newF, newS, td1', hl, hf, hs, hq, hfl, hnone, _⟩ :=
    learn_spec f g now q results kb td0 h0
  rw [h1] at hl
  have htd : td1 = td1' := Option.some.inj hl
  subst htd
  have hemp : newF = [] := by
    have hface : td0.facts ++ newF = td0.facts := by
      rw [← hf, hsame]
    have hlen := congrArg List.length hface
    rw [List.length_append] at hlen
    exact List.length_eq_zero.mp (by omega)
  obtain ⟨hrel, hlu, hru⟩ := hnone hemp
  exact ⟨rfl, hrel, hlu, hfl, hq, hru, ⟨newS, hs⟩⟩

/-- Fixture for C2: a search result whose content duplicates the stored
fact below. -/
def rC2 : SearchResult :=
  ⟨"t", "Berlin is the capital city of Germany.", "BBC", "u", 1/2⟩

/-- Counterexample to C2: learning a brand-new fact into an empty
knowledge base appends one fact to the (created) topic, yet the function
still returns the absent value — "returns a snapshot iff a new fact was
added" fails in the only-if direction (and the call also created the topic,
so the no-new-fact direction's frame claim fails on other inputs too). -/
theorem claim_C2_counterexample :
    (learn_from_search_results mdF faF 5 "berlin" [rC2] ⟨[], []⟩).2 = none
      ∧ ((learn_from_search_results mdF faF 5 "berlin" [rC2] ⟨[], []⟩).1.topics.lookup
          (generate_topic_key mdF "berlin")).map (fun td => td.facts.length)
            = some 1 := by
  exact ⟨rfl, rfl⟩

/-- Fixture for the C2 witness: the stored fact duplicated by `rC2`. -/
def f1C2 : FactRec :=
  ⟨"Berlin is the capital city of Germany.", "berlin", 7/10, 0, "BBC", 1/2, none⟩

/-- Fixture for the C2 witness. -/
def tdC2 : TopicRec := ⟨"berlin", 0, 0, [f1C2], [], 1/2⟩

/-- Fixture for the C2 witness. -/
def kbC2 : KnowledgeBase := ⟨[("berlin", tdC2)], []⟩

/-- The topic record after the duplicate learn of the C2 witness: facts,
reliability and timestamps unchanged, one source appended. -/
def td1C2 : TopicRec := ⟨"berlin", 0, 0, [f1C2], [⟨"u", "t", 1/2, 5⟩], 1/2⟩

/-- Witness for the amended C2: learning a duplicate of the stored fact
adds nothing, returns the absent value, and leaves facts and reliability
unchanged. -/
theorem claim_C2_witness :
    kbC2.topics.lookup (generate_topic_key mdF "berlin") = some tdC2
      ∧ (learn_from_search_results mdF faF 5 "berlin" [rC2] kbC2).1.topics.lookup
          (generate_topic_key mdF "berlin") = some td1C2
      ∧ td1C2.facts = tdC2.facts
      ∧ (learn_from_search_results mdF faF 5 "berlin" [rC2] kbC2).2 = none
      ∧ td1C2.reliability_score = tdC2.reliability_score := by
  have h := claim_C2_amended mdF faF 5 "berlin" [rC2] kbC2 tdC2 td1C2 rfl rfl rfl
  exact ⟨rfl, rfl, rfl, h.1, h.2.1⟩

/-- C1 (amended): after `learn_from_search_results` adds at least one new
fact to an already cached topic, the topic's `reliability_score` equals
the arithmetic mean of the source reliabilities of the facts added *by
this call only* (the newly appended suffix), not of all stored facts; the
two coincide exactly when the topic had no facts before the call (e.g. two
facts of reliability 0.9 and 0.5 learned in one call give 0.7). -/
theorem claim_C1_amended (f : String → String) (g : String → List String)
    (now : Int) (q : String) (results : List SearchResult)
    (kb : KnowledgeBase) (td0 td1 : TopicRec)
    (h0 : kb.topics.lookup (generate_topic_key f q) = some td0)
    (h1 : (learn_from_search_results f g now q results kb).1.topics.lookup
        (generate_topic_key f q) = some td1)
    (hgrow : td0.facts.length < td1.facts.length) :
    td1.reliability_score = meanRel (td1.facts.drop td0.facts.length)
      ∧ (td0.facts = [] → td1.reliability_score = meanRel td1.facts) := by
  obtain ⟨newF, newS, td1', hl, hf, hs, hq, hfl, _, hpos⟩ :=
    learn_spec f g now q results kb td0 h0
  rw [h1] at hl
  have htd : td1 = td1' := Option.some.inj hl
  subst htd
  have hne : newF ≠ [] := by
    intro he
    subst he
    rw [hf, List.length_append] at hgrow
    simp at hgrow
  obtain ⟨hrel, _⟩ := hpos hne
  have hdrop : td1.facts.drop td0.facts.length = newF := by
    rw [hf]
    exact List.drop_left _ _
  refine ⟨?_, ?_⟩
  · rw [hrel, hdrop, meanRel]
  · intro h0f
    rw [hrel, hf, h0f, List.nil_append, meanRel]

/-- Fixture for C1: the fact stored before the call, source reliability
0.9. -/
def f1C1 : FactRec :=
  ⟨"Paris is the capital of France.", "paris", 7/10, 0, "Wikipedia", 9/10, none⟩

/-- Fixture for C1: the cached topic holding `f1C1`. -/
def tdC1 : TopicRec := ⟨"paris", 0, 0, [f1C1], [], 9/10⟩

/-- Fixture for C1. -/
def kbC1 : KnowledgeBase := ⟨[("paris", tdC1)], []⟩

/-- Fixture for C1: a search result contributing one new fact with source
reliability 0.5. -/
def rC1 : SearchResult :=
  ⟨"t", "Berlin is the capital city of Germany.", "BBC", "u", 1/2⟩

/-- The fact appended by the C1 learn call. -/
def f2C1 : FactRec :=
  ⟨"Berlin is the capital city of Germany.", "paris", 7/10, 100, "BBC", 1/2, none⟩

/-- The topic record the C1 learn call actually stores: the reliability
field is the exact arithmetic term the code computes
(`total_reliability / fact_count` over the one new fact). -/
def tdC1x : TopicRec :=
  ⟨"paris", 0, 100, [f1C1, f2C1], [⟨"u", "t", 1/2, 100⟩],
    ((0 : ℚ) + rC1.reliability) / ((0 + 1 : Nat) : ℚ)⟩

/-- Counterexample to C1: the topic holds two facts of source reliability
0.9 (retained) and 0.5 (added by this call); the claim demands the mean
over all stored facts, 0.7, but the stored aggregate is 0.5 — the mean
over the facts added by this call only. -/
theorem claim_C1_counterexample :
    ((learn_from_search_results mdF faF 100 "paris" [rC1] kbC1).1.topics.lookup
        (generate_topic_key mdF "paris")).map
      (fun td => (td.facts.length, td.reliability_score, meanRel td.facts))
      = some (2, 1/2, 7/10)
      ∧ ((1 : ℚ)/2) ≠ (7/10 : ℚ) := by
  have hlk : (learn_from_search_results mdF faF 100 "paris" [rC1] kbC1).1.topics.lookup
      (generate_topic_key mdF "paris") = some tdC1x := rfl
  refine ⟨?_, by norm_num⟩
  rw [hlk, Option.map_some']
  have h2 : tdC1x.facts.length = 2 := rfl
  have hrel : tdC1x.reliability_score = 1/2 := by
    show ((0 : ℚ) + rC1.reliability) / ((0 + 1 : Nat) : ℚ) = 1/2
    norm_num [rC1]
  have hmean : meanRel tdC1x.facts = 7/10 := by
    show meanRel [f1C1, f2C1] = 7/10
    norm_num [meanRel, sumRel, f1C1, f2C1]
  rw [h2, hrel, hmean]

/-- Witness for the amended C1: the concrete call of the counterexample,
where the stored aggregate equals the mean reliability of the one fact
added by the call. -/
theorem claim_C1_witness :
    kbC1.topics.lookup (generate_topic_key mdF "paris") = some tdC1
      ∧ tdC1.facts.length < tdC1x.facts.length
      ∧ tdC1x.reliability_score = meanRel (tdC1x.facts.drop tdC1.facts.length) := by
  refine ⟨rfl, by decide, ?_⟩
  exact (claim_C1_amended mdF faF 100 "paris" [rC1] kbC1 tdC1 tdC1x rfl rfl
    (by decide)).1

/-! ## Claim C10 — get_relevant_facts mutates the knowledge base -/

/-- What happens to one stored `(key, topic)` pair during
`get_relevant_facts`: a topic with positive relevance score gets
`relevance_score` written into its first two fact records (in place), any
other topic is untouched. -/
def gC10 (text : String) (p : String × TopicRec) : String × TopicRec :=
  if 0 < relScoreOf (word_tokens (lowerStr text)) p.2
  then (p.1, writeRel (relScoreOf (word_tokens (lowerStr text)) p.2) p.2) else p

/-- The facts a topic contributes to the candidate pool in
`get_relevant_facts`. -/
def eC10 (text : String) (p : String × TopicRec) : List FactRec :=
  if 0 < relScoreOf (word_tokens (lowerStr text)) p.2
  then (writeRel (relScoreOf (word_tokens (lowerStr text)) p.2) p.2).facts.take 2
  else []

lemma flatten_singleton_map {α β : Type} (g : α → β) (l : List α) :
    (l.map (fun x => [g x])).flatten = l.map g := by
  induction l with
  | nil => rfl
  | cons x l ih => simp [ih]

lemma foldl_pair_append {α β γ : Type} (G : α → List β) (E : α → List γ) :
    ∀ (l : List α) (a : List β) (c : List γ),
      l.foldl (fun acc p => (acc.1 ++ G p, acc.2 ++ E p)) (a, c)
        = (a ++ (l.map G).flatten, c ++ (l.map E).flatten) := by
  intro l
  induction l with
  | nil =>
    intro a c
    simp
  | cons p l ih =>
    intro a c
    show l.foldl _ (a ++ G p, c ++ E p) = _
    rw [ih]
    simp [List.append_assoc]

lemma grf_topics (text : String) (n : Nat) (kb : KnowledgeBase) :
    (get_relevant_facts text n kb).1.topics = kb.topics.map (gC10 text) := by
  unfold get_relevant_facts
  dsimp only
  have hF : (fun (acc : List (String × TopicRec) × List FactRec) p =>
      let score := relScoreOf (word_tokens (lowerStr text)) p.2
      if 0 < score then
        let td := writeRel score p.2
        (acc.1 ++ [(p.1, td)], acc.2 ++ td.facts.take 2)
      else (acc.1 ++ [p], acc.2))
      = (fun (acc : List (String × TopicRec) × List FactRec) p =>
          (acc.1 ++ [gC10 text p], acc.2 ++ eC10 text p)) := by
    funext acc p
    dsimp only
    by_cases hp : 0 < relScoreOf (word_tokens (lowerStr text)) p.2
    · rw [if_pos hp]
      unfold gC10 eC10
      rw [if_pos hp, if_pos hp]
    · rw [if_neg hp]
      unfold gC10 eC10
      rw [if_neg hp, if_neg hp]
      simp
  rw [hF, foldl_pair_append (fun p => [gC10 text p]) (eC10 text) kb.topics [] []]
  rw [List.nil_append, flatten_singleton_map]

/-- C10: `get_relevant_facts` is not read-only — every stored topic whose
query matches at least one input word (positive relevance score) has a
`relevance_score` field written (or overwritten) into its first two stored
fact records, in place, while facts beyond the first two and non-matching
topics are untouched; and the persisted snapshot (`save_all_data` dumps the
in-memory knowledge base) carries exactly this mutated knowledge base. -/
theorem claim_C10_relevant_facts_mutate (text : String) (kb : KnowledgeBase)
    (k : String) (td : TopicRec) (hist : List SearchHistEntry)
    (hmem : (k, td) ∈ kb.topics)
    (hpos : 0 < relScoreOf (word_tokens (lowerStr text)) td) :
    ((get_relevant_facts text 3 kb).1.topics = kb.topics.map (gC10 text))
      ∧ ((k, writeRel (relScoreOf (word_tokens (lowerStr text)) td) td)
          ∈ (get_relevant_facts text 3 kb).1.topics)
      ∧ (writeRel (relScoreOf (word_tokens (lowerStr text)) td) td).facts
          = (td.facts.take 2).map
              (fun fa => { fa with
                relevance_score := some (relScoreOf (word_tokens (lowerStr text)) td) })
            ++ td.facts.drop 2
      ∧ (save_all_data ⟨(get_relevant_facts text 3 kb).1, hist⟩).1
          = (get_relevant_facts text 3 kb).1 := by
  refine ⟨grf_topics text 3 kb, ?_, rfl, rfl⟩
  rw [grf_topics]
  have hm := List.mem_map_of_mem (gC10 text) hmem
  rwa [show gC10 text (k, td)
      = (k, writeRel (relScoreOf (word_tokens (lowerStr text)) td) td) from by
    unfold gC10
    rw [if_pos hpos]] at hm

/-- Fixture for the C10 witness: three stored facts, so that only the
first two receive the relevance write. -/
def fDog1 : FactRec :=
  ⟨"Dogs are loyal domesticated animals.", "dogs", 7/10, 0, "W", 9/10, none⟩

/-- Fixture for the C10 witness. -/
def fDog2 : FactRec :=
  ⟨"Dogs were domesticated from wolves.", "dogs", 7/10, 0, "W", 9/10, none⟩

/-- Fixture for the C10 witness. -/
def fDog3 : FactRec :=
  ⟨"Dogs are found on every continent.", "dogs", 7/10, 0, "W", 9/10, none⟩

/-- Fixture for the C10 witness. -/
def tdDog : TopicRec := ⟨"dogs", 0, 0, [fDog1, fDog2, fDog3], [], 1⟩

/-- Fixture for the C10 witness. -/
def kbC10 : KnowledgeBase := ⟨[("dogs", tdDog)], []⟩

/-- Witness for C10: for the input "tell me about dogs" the stored "dogs"
topic has positive relevance, and the mutated topic (first two facts
stamped with the score) is what the call leaves in the knowledge base. -/
theorem claim_C10_witness :
    (("dogs", tdDog) ∈ kbC10.topics)
      ∧ 0 < relScoreOf (word_tokens (lowerStr "tell me about dogs")) tdDog
      ∧ ("dogs", writeRel (relScoreOf (word_tokens (lowerStr "tell me about dogs"))
            tdDog) tdDog)
          ∈ (get_relevant_facts "tell me about dogs" 3 kbC10).1.topics := by
  refine ⟨List.mem_singleton.mpr rfl, by decide, ?_⟩
  exact (claim_C10_relevant_facts_mutate "tell me about dogs" kbC10 "dogs" tdDog []
    (List.mem_singleton.mpr rfl) (by decide)).2.1
